import Mathlib

/-!
Verification of the Magic Transporter mover engine.

This file gives a shallow embedding of the core of the repository:
the mover lifecycle state machine (src/utils/stateMachine.util.ts),
the mover repository operations (MagicMoverRepository in the database layer:
loadItems, startMission, endMission, unloadItems, getTopPerformers),
the service layer that orchestrates them (MagicMoverService), and the
item-creation pipeline (CreateMagicItemDto validation plus the Mongoose
MagicItem schema).

Modelling conventions:
- JavaScript numbers are modelled as exact rationals (Rat).
- The MongoDB collections are modelled as in-memory lists; an item registry
  is a list of (id, weight) pairs, `find with $in` is a filter over it.
- Thrown JS errors are modelled as an explicit error type in Except; the
  error kinds mirror the distinct error messages thrown by the source.
- Sequential execution is modelled by passing the mover document through
  each operation explicitly; a failed operation leaves the stored document
  unchanged (the source throws before mutating the persisted document).
-/

deriving instance DecidableEq for Except

namespace MagicTransporter

/-- Mover lifecycle states, from the MagicMoverState enum
(values: resting, loading, on-mission). -/
inductive MagicMoverState where
  | resting
  | loading
  | onMission
deriving DecidableEq, Repr

/-- Activity log entry types, from the ActivityType enum
(values: loading, unloading, mission_started, mission_ended). -/
inductive ActivityType where
  | loading
  | unloading
  | missionStarted
  | missionEnded
deriving DecidableEq, Repr

/-- A row of the state machine's transition table
(type StateTransition in stateMachine.util.ts). -/
structure StateTransition where
  fromState : MagicMoverState
  toState : MagicMoverState
  action : String
deriving DecidableEq, Repr

/-- The TRANSITIONS table of MagicMoverStateMachine: the five allowed
(from, to, action) rows, in source order. -/
def TRANSITIONS : List StateTransition :=
  [ ⟨.resting, .loading, "load"⟩,
    ⟨.loading, .loading, "load"⟩,
    ⟨.loading, .onMission, "start_mission"⟩,
    ⟨.loading, .resting, "unload"⟩,
    ⟨.onMission, .resting, "end_mission"⟩ ]

/-- MagicMoverStateMachine.canTransition: true iff some row of TRANSITIONS
matches the given (current, target, action) triple. -/
def canTransition (currentState targetState : MagicMoverState) (action : String) : Bool :=
  TRANSITIONS.any fun tr =>
    decide (tr.fromState = currentState) &&
    decide (tr.toState = targetState) &&
    decide (tr.action = action)

/-- The error kinds thrown by the embedded code. Each constructor mirrors a
distinct error message of the source, together with the data interpolated
into that message. -/
inductive MoverError where
  | moverNotFound
  | itemsNotFound (missingItemIds : List String)
  | invalidTransition (fromState toState : MagicMoverState) (action : String)
  | duplicateItems (duplicates : List String)
  | capacityExceeded (current adding limit : Rat)
  | mustBeOnMission
  | concurrencyConflict
  | dtoValidationError (field : String)
  | schemaValidationError (field : String)
deriving DecidableEq, Repr

/-- MagicMoverStateMachine.validateTransition: ok when canTransition holds,
otherwise the InvalidTransitionError carrying the attempted from-state,
to-state and action. -/
def validateTransition (currentState targetState : MagicMoverState) (action : String) :
    Except MoverError Unit :=
  if canTransition currentState targetState action then .ok ()
  else .error (.invalidTransition currentState targetState action)

/-- A MagicMover document (IMagicMover, MagicMover.schema.ts): name is
optional; currentWeight starts at 0, state at resting, items empty,
completedMissions 0, matching the schema defaults. -/
structure MagicMover where
  name : Option String := none
  weightLimit : Rat
  currentWeight : Rat := 0
  state : MagicMoverState := .resting
  items : List String := []
  completedMissions : Nat := 0
deriving DecidableEq, Repr

/-- The MagicItem collection, projected to what the mover engine reads:
a list of (document id, weight) pairs. MongoDB document ids are unique;
theorems that need uniqueness take it as a Nodup hypothesis. -/
abbrev ItemRegistry := List (String × Rat)

/-- MagicItemRepository.findByIds: find with an $in filter, returning every
stored document whose id occurs in the requested list, in store order. -/
def findByIds (registry : ItemRegistry) (ids : List String) : ItemRegistry :=
  registry.filter fun item => decide (item.1 ∈ ids)

/-- MagicMoverService.validateItemsExist: fetch the requested ids and fail
with the list of missing ids when the result count differs from the
request count. -/
def validateItemsExist (registry : ItemRegistry) (itemIds : List String) :
    Except MoverError Unit :=
  let items := findByIds registry itemIds
  if items.length = itemIds.length then .ok ()
  else .error (.itemsNotFound
    (itemIds.filter fun itemId => decide (itemId ∉ items.map Prod.fst)))

/-- MagicMoverService.calculateTotalWeight: fetch the items and sum their
weights with reduce. -/
def calculateTotalWeight (registry : ItemRegistry) (itemIds : List String) : Rat :=
  ((findByIds registry itemIds).map Prod.snd).sum

/-- MagicMoverRepository.validateWeightLimit: the mover can carry the
additional weight iff currentWeight + additionalWeight <= weightLimit. -/
def validateWeightLimit (mover : MagicMover) (additionalWeight : Rat) : Bool :=
  decide (mover.currentWeight + additionalWeight ≤ mover.weightLimit)

/-- MagicMoverRepository.loadItems on a fetched mover document: validate the
state transition to loading first, then reject duplicate item ids, then
reject a weight-limit overflow, and only then mutate (state loading, items
appended, weight increased). -/
def repoLoadItems (mover : MagicMover) (itemIds : List String) (totalWeight : Rat) :
    Except MoverError MagicMover :=
  match validateTransition mover.state .loading "load" with
  | .error e => .error e
  | .ok _ =>
    let duplicates := itemIds.filter fun itemId => decide (itemId ∈ mover.items)
    if duplicates.isEmpty then
      if validateWeightLimit mover totalWeight then
        .ok { mover with
              state := .loading,
              items := mover.items ++ itemIds,
              currentWeight := mover.currentWeight + totalWeight }
      else .error (.capacityExceeded mover.currentWeight totalWeight mover.weightLimit)
    else .error (.duplicateItems duplicates)

/-- MagicMoverRepository.startMission on a fetched mover document: validate
the transition to on-mission, then set the state. -/
def repoStartMission (mover : MagicMover) : Except MoverError MagicMover :=
  match validateTransition mover.state .onMission "start_mission" with
  | .error e => .error e
  | .ok _ => .ok { mover with state := .onMission }

/-- MagicMoverRepository.endMission on a fetched mover document: validate the
transition to resting under the end_mission action, then clear items, zero
the weight, set state resting and increment completedMissions. -/
def repoEndMission (mover : MagicMover) : Except MoverError MagicMover :=
  match validateTransition mover.state .resting "end_mission" with
  | .error e => .error e
  | .ok _ => .ok { mover with
                   items := [],
                   currentWeight := 0,
                   state := .resting,
                   completedMissions := mover.completedMissions + 1 }

/-- MagicMoverRepository.unloadItems on a fetched mover document: validate the
transition to resting under the unload action, then clear items, zero the
weight and set state resting (completedMissions untouched). -/
def repoUnloadItems (mover : MagicMover) : Except MoverError MagicMover :=
  match validateTransition mover.state .resting "unload" with
  | .error e => .error e
  | .ok _ => .ok { mover with
                   items := [],
                   currentWeight := 0,
                   state := .resting }

/-- The document the service hands to ActivityLogRepository.create: the
activity type plus the details object (previousState, newState, and the
per-operation extra fields). Absent detail fields are none. -/
structure ActivityLogCreate where
  moverId : String
  activityType : ActivityType
  previousState : MagicMoverState
  newState : MagicMoverState
  itemIds : Option (List String) := none
  itemCount : Option Nat := none
  totalWeight : Option Rat := none
  completedMissions : Option Nat := none
deriving DecidableEq, Repr

/-- MagicMoverService.loadItems: verify the mover exists, verify all items
exist, compute the total weight, delegate to the repository, then emit the
LOADING activity-log entry (itemIds, itemCount, totalWeight). -/
def serviceLoadItems (registry : ItemRegistry) (moverOpt : Option MagicMover)
    (moverId : String) (itemIds : List String) :
    Except MoverError (MagicMover × ActivityLogCreate) :=
  match moverOpt with
  | none => .error .moverNotFound
  | some mover =>
    match validateItemsExist registry itemIds with
    | .error e => .error e
    | .ok _ =>
      let totalWeight := calculateTotalWeight registry itemIds
      let previousState := mover.state
      match repoLoadItems mover itemIds totalWeight with
      | .error e => .error e
      | .ok updated =>
        .ok (updated,
          { moverId := moverId,
            activityType := .loading,
            previousState := previousState,
            newState := updated.state,
            itemIds := some itemIds,
            itemCount := some itemIds.length,
            totalWeight := some totalWeight })

/-- MagicMoverService.startMission: verify the mover exists, delegate to the
repository, then emit the MISSION_STARTED entry with an itemCount and
totalWeight snapshot of the updated mover. -/
def serviceStartMission (moverOpt : Option MagicMover) (moverId : String) :
    Except MoverError (MagicMover × ActivityLogCreate) :=
  match moverOpt with
  | none => .error .moverNotFound
  | some mover =>
    let previousState := mover.state
    match repoStartMission mover with
    | .error e => .error e
    | .ok updated =>
      .ok (updated,
        { moverId := moverId,
          activityType := .missionStarted,
          previousState := previousState,
          newState := updated.state,
          itemCount := some updated.items.length,
          totalWeight := some updated.currentWeight })

/-- MagicMoverService.endMission: verify the mover exists, then check
explicitly that it is on mission (the distinct "must be on mission" error,
raised before the state machine is consulted), then delegate to the
repository and emit the MISSION_ENDED entry with the pre-clear itemCount
and totalWeight and the new completedMissions. -/
def serviceEndMission (moverOpt : Option MagicMover) (moverId : String) :
    Except MoverError (MagicMover × ActivityLogCreate) :=
  match moverOpt with
  | none => .error .moverNotFound
  | some mover =>
    if mover.state ≠ .onMission then .error .mustBeOnMission
    else
      let previousState := mover.state
      let itemCount := mover.items.length
      let totalWeight := mover.currentWeight
      match repoEndMission mover with
      | .error e => .error e
      | .ok updated =>
        .ok (updated,
          { moverId := moverId,
            activityType := .missionEnded,
            previousState := previousState,
            newState := updated.state,
            itemCount := some itemCount,
            totalWeight := some totalWeight,
            completedMissions := some updated.completedMissions })

/-- MagicMoverService.unloadItems: verify the mover exists, delegate to the
repository (which enforces the LOADING-to-RESTING unload transition), then
emit the UNLOADING entry with the pre-clear itemCount and totalWeight. -/
def serviceUnloadItems (moverOpt : Option MagicMover) (moverId : String) :
    Except MoverError (MagicMover × ActivityLogCreate) :=
  match moverOpt with
  | none => .error .moverNotFound
  | some mover =>
    let previousState := mover.state
    let itemCount := mover.items.length
    let totalWeight := mover.currentWeight
    match repoUnloadItems mover with
    | .error e => .error e
    | .ok updated =>
      .ok (updated,
        { moverId := moverId,
          activityType := .unloading,
          previousState := previousState,
          newState := updated.state,
          itemCount := some itemCount,
          totalWeight := some totalWeight })

/-- Creating a mover through the validated endpoint: CreateMagicMoverDto
requires a positive weightLimit and, when a name is given, a non-empty
name; the schema then fills the fresh defaults (resting, no cargo). -/
def createMover (weightLimit : Rat) (name : Option String) :
    Except MoverError MagicMover :=
  if weightLimit ≤ 0 then .error (.dtoValidationError "weightLimit")
  else if name = some "" then .error (.dtoValidationError "name")
  else .ok { name := name, weightLimit := weightLimit }

/-- One mover-engine request in a sequential run. -/
inductive MoverOp where
  | loadItems (itemIds : List String)
  | startMission
  | endMission
  | unloadItems
deriving DecidableEq, Repr

/-- Dispatch one request through the service layer. -/
def applyOp (registry : ItemRegistry) (mover : MagicMover) :
    MoverOp → Except MoverError (MagicMover × ActivityLogCreate)
  | .loadItems itemIds => serviceLoadItems registry (some mover) "mover" itemIds
  | .startMission => serviceStartMission (some mover) "mover"
  | .endMission => serviceEndMission (some mover) "mover"
  | .unloadItems => serviceUnloadItems (some mover) "mover"

/-- The stored mover after one request: the updated document when the
operation commits, the unchanged document when it fails (the source throws
before saving). -/
def commitStep (registry : ItemRegistry) (mover : MagicMover) (op : MoverOp) :
    MagicMover :=
  match applyOp registry mover op with
  | .ok (updated, _) => updated
  | .error _ => mover

/-- The stored mover after a sequential run of requests. -/
def runOps (registry : ItemRegistry) (mover : MagicMover) (ops : List MoverOp) :
    MagicMover :=
  ops.foldl (commitStep registry) mover

/-- Weight of one item id in the registry (first matching document). -/
def lookupWeight (registry : ItemRegistry) (itemId : String) : Option Rat :=
  (registry.find? fun item => decide (item.1 = itemId)).map Prod.snd

/-- Sum of the registry weights of the listed item ids (missing ids count
as weight 0). -/
def sumWeights (registry : ItemRegistry) (itemIds : List String) : Rat :=
  (itemIds.map fun itemId => (lookupWeight registry itemId).getD 0).sum

/-- An ActivityLog document as stored (ActivityLog.schema.ts), projected to
the fields getTopPerformers reads: moverId, activityType, details.itemIds
and the createdAt timestamp (modelled as a Nat). -/
structure ActivityLogDoc where
  moverId : String
  activityType : ActivityType
  itemIds : List String := []
  createdAt : Nat
deriving DecidableEq, Repr

/-- Helper for jsSetDedup: keep each element whose value has not been seen
yet, accumulating the seen values. -/
def jsSetDedupAux (seen : List String) : List String → List String
  | [] => []
  | x :: xs =>
    if x ∈ seen then jsSetDedupAux seen xs
    else x :: jsSetDedupAux (x :: seen) xs

/-- First-occurrence deduplication, the JS idiom spread-of-new-Set used for
the moverIds list in getTopPerformers. -/
def jsSetDedup (l : List String) : List String :=
  jsSetDedupAux [] l

/-- The LOADING log entries whose details.itemIds contain the item, as
queried by getTopPerformers. -/
def qualifyingLoadings (logs : List ActivityLogDoc) (itemId : String) :
    List ActivityLogDoc :=
  logs.filter fun l => decide (l.activityType = .loading) && decide (itemId ∈ l.itemIds)

/-- The MISSION_ENDED log entries of one mover, as queried by
getTopPerformers. -/
def missionEndedLogs (logs : List ActivityLogDoc) (moverId : String) :
    List ActivityLogDoc :=
  logs.filter fun l => decide (l.moverId = moverId) && decide (l.activityType = .missionEnded)

/-- The per-mover count computed inside getTopPerformers: among the mover's
qualifying LOADING entries, how many have some MISSION_ENDED entry of the
same mover strictly after them. -/
def codeMissionCount (logs : List ActivityLogDoc) (itemId moverId : String) : Nat :=
  (((qualifyingLoadings logs itemId).filter fun l => decide (l.moverId = moverId)).filter
    fun l => (missionEndedLogs logs moverId).any fun e => decide (l.createdAt < e.createdAt)).length

/-- MagicMoverRepository.getTopPerformers with an itemId: collect the movers
with a qualifying LOADING entry (first-occurrence order), pair each with
its count, sort by count descending (stable, as the JS comparator sort),
and fetch the mover documents in that order, skipping ids without a
document. -/
def getTopPerformersByItem (logs : List ActivityLogDoc)
    (movers : List (String × MagicMover)) (itemId : String) :
    List (String × MagicMover) :=
  let loadingActivities := qualifyingLoadings logs itemId
  let moverIds := jsSetDedup (loadingActivities.map (·.moverId))
  let moverMissionCounts := moverIds.map fun moverId =>
    (moverId, codeMissionCount logs itemId moverId)
  let sorted := List.insertionSort (fun a b => b.2 ≤ a.2) moverMissionCounts
  sorted.filterMap fun p => movers.find? fun mv => decide (mv.1 = p.1)

/-- The per-mover count as the claim states it: the number of MISSION_ENDED
entries of the mover that occur strictly after some qualifying LOADING
entry of that mover. Written from the claim text, for comparison with
codeMissionCount. -/
def claimMissionCount (logs : List ActivityLogDoc) (itemId moverId : String) : Nat :=
  ((missionEndedLogs logs moverId).filter fun e =>
    ((qualifyingLoadings logs itemId).filter fun l => decide (l.moverId = moverId)).any
      fun l => decide (l.createdAt < e.createdAt)).length

/-- getTopPerformers(itemId) as the claim states it: exactly the movers with
a qualifying LOADING entry and a positive claimMissionCount, ordered by
that count descending. Written from the claim text, for comparison with
getTopPerformersByItem. -/
def claimTopPerformersByItem (logs : List ActivityLogDoc)
    (movers : List (String × MagicMover)) (itemId : String) :
    List (String × MagicMover) :=
  let qualified := movers.filter fun mv =>
    decide (((qualifyingLoadings logs itemId).filter
      fun l => decide (l.moverId = mv.1)) ≠ []) &&
    decide (0 < claimMissionCount logs itemId mv.1)
  let sorted := List.insertionSort
    (fun a b => claimMissionCount logs itemId b.1 ≤ claimMissionCount logs itemId a.1)
    qualified
  sorted

/-- MagicMover.schema.ts sets the schema option versionKey to false, so the
stored mover documents carry no __v version field. -/
def magicMoverVersionKeyEnabled : Bool := false

/-- A stored mover document together with the version counter an
optimistic-concurrency scheme would maintain for it. -/
structure VersionedMover where
  doc : MagicMover
  version : Nat
deriving DecidableEq, Repr

/-- A Mongoose document save as the repository expects it to behave: when a
version key is enabled it is a conditional write that raises VersionError
(mapped to the concurrency-conflict error) on a stale read version; with
the version key disabled (the actual schema configuration) the write is
unconditional. -/
def mongooseSave (versionKeyEnabled : Bool) (store : VersionedMover)
    (readVersion : Nat) (newDoc : MagicMover) : Except MoverError VersionedMover :=
  if versionKeyEnabled && decide (store.version ≠ readVersion) then
    .error .concurrencyConflict
  else .ok ⟨newDoc, store.version + 1⟩

/-- Two endMission requests racing on the same mover in the lost-update
interleaving: both read the stored document before either writes; the first
computes and saves, then the second saves from its stale read. Returns the
two request outcomes. -/
def raceEndMissionTwice (versionKeyEnabled : Bool) (store : VersionedMover) :
    Except MoverError VersionedMover × Except MoverError VersionedMover :=
  let result1 :=
    match repoEndMission store.doc with
    | .error e => .error e
    | .ok updated => mongooseSave versionKeyEnabled store store.version updated
  let afterFirst := match result1 with
    | .ok s => s
    | .error _ => store
  let result2 :=
    match repoEndMission store.doc with
    | .error e => .error e
    | .ok updated => mongooseSave versionKeyEnabled afterFirst store.version updated
  (result1, result2)

/-- A MagicItem document as stored: the trimmed name and the weight. -/
structure MagicItemDoc where
  name : String
  weight : Rat
deriving DecidableEq, Repr

/-- JS String.prototype.trim as applied by the schema option trim on the
item name: strip leading and trailing whitespace. -/
def jsTrim (s : String) : String :=
  let ws : Char → Bool := fun c => decide (c = ' ') || decide (c = '\t') ||
    decide (c = '\n') || decide (c = '\r')
  String.mk (((s.data.dropWhile ws).reverse.dropWhile ws).reverse)

/-- Creating an item through the validated endpoint: CreateMagicItemDto
requires a non-empty string name and a positive weight; the MagicItem
schema then trims the name, requires the trimmed name non-empty, and
requires weight at least 0. -/
def createMagicItem (name : String) (weight : Rat) : Except MoverError MagicItemDoc :=
  if name = "" then .error (.dtoValidationError "name")
  else if weight ≤ 0 then .error (.dtoValidationError "weight")
  else
    let storedName := jsTrim name
    if storedName = "" then .error (.schemaValidationError "name")
    else if weight < 0 then .error (.schemaValidationError "weight")
    else .ok ⟨storedName, weight⟩

/-- The three mover invariants of the claim: currentWeight is the sum of the
weights of the loaded items, currentWeight is within the weight limit, and
the cargo list has no duplicate ids. -/
def MoverInvariant (registry : ItemRegistry) (mover : MagicMover) : Prop :=
  mover.currentWeight = sumWeights registry mover.items ∧
  mover.currentWeight ≤ mover.weightLimit ∧
  mover.items.Nodup

/-- Strengthened invariant used for the preservation argument: additionally,
every loaded id exists in the registry and the weight is nonnegative. -/
def StrongInvariant (registry : ItemRegistry) (mover : MagicMover) : Prop :=
  mover.items.Nodup ∧
  (∀ i ∈ mover.items, (lookupWeight registry i).isSome) ∧
  mover.currentWeight = sumWeights registry mover.items ∧
  0 ≤ mover.currentWeight ∧
  mover.currentWeight ≤ mover.weightLimit

/-- Looking up the key of a stored registry entry returns that entry's
weight, provided document ids are unique. -/
theorem lookupWeight_of_mem {registry : ItemRegistry} {p : String × Rat}
    (hkeys : (registry.map Prod.fst).Nodup) (hp : p ∈ registry) :
    lookupWeight registry p.1 = some p.2 := by
  induction registry with
  | nil => cases hp
  | cons q rest ih =>
    rw [List.map_cons, List.nodup_cons] at hkeys
    rcases List.mem_cons.1 hp with hq | hrest
    · subst hq
      simp [lookupWeight, List.find?]
    · have hne : q.1 ≠ p.1 := by
        intro he
        exact hkeys.1 (he ▸ List.mem_map_of_mem Prod.fst hrest)
      have := ih hkeys.2 hrest
      simpa [lookupWeight, List.find?, hne] using this

/-- The empty cargo list weighs nothing. -/
theorem sumWeights_nil (registry : ItemRegistry) : sumWeights registry [] = 0 := rfl

/-- Cargo weight is additive over concatenation. -/
theorem sumWeights_append (registry : ItemRegistry) (l₁ l₂ : List String) :
    sumWeights registry (l₁ ++ l₂) = sumWeights registry l₁ + sumWeights registry l₂ := by
  simp [sumWeights]

/-- Cargo weight is invariant under permutation of the id list. -/
theorem sumWeights_perm (registry : ItemRegistry) {l₁ l₂ : List String}
    (h : l₁.Perm l₂) : sumWeights registry l₁ = sumWeights registry l₂ :=
  (h.map _).sum_eq

/-- When the count check of validateItemsExist passes over a registry with
unique ids, the requested id list has no duplicates, every requested id is
stored, and the code's reduce-based total weight agrees with the per-id
lookup sum. -/
theorem validateItemsExist_ok_inv {registry : ItemRegistry} {ids : List String}
    (hkeys : (registry.map Prod.fst).Nodup)
    (h : validateItemsExist registry ids = .ok ()) :
    ids.Nodup ∧ (∀ i ∈ ids, (lookupWeight registry i).isSome) ∧
    calculateTotalWeight registry ids = sumWeights registry ids := by
  have hlen : (findByIds registry ids).length = ids.length := by
    by_contra hne
    simp [validateItemsExist, hne] at h
  set found := findByIds registry ids with hfound
  have hfound_sub : found.Sublist registry := List.filter_sublist registry
  have hfk_nodup : (found.map Prod.fst).Nodup :=
    hkeys.sublist (hfound_sub.map Prod.fst)
  have hfk_mem : ∀ i ∈ found.map Prod.fst, i ∈ ids := by
    intro i hi
    rcases List.mem_map.1 hi with ⟨p, hp, hpi⟩
    have := List.mem_filter.1 hp
    subst hpi
    simpa using this.2
  have hsub : List.Subperm (found.map Prod.fst) ids :=
    hfk_nodup.subperm hfk_mem
  have hperm : (found.map Prod.fst).Perm ids := by
    apply List.Subperm.perm_of_length_le hsub
    simp [hlen]
  have hids_nodup : ids.Nodup := hperm.nodup hfk_nodup
  have hfound_reg : ∀ p ∈ found, p ∈ registry := fun p hp => hfound_sub.mem hp
  have hmem_some : ∀ i ∈ ids, (lookupWeight registry i).isSome := by
    intro i hi
    have : i ∈ found.map Prod.fst := hperm.mem_iff.2 hi
    rcases List.mem_map.1 this with ⟨p, hp, hpi⟩
    subst hpi
    rw [lookupWeight_of_mem hkeys (hfound_reg p hp)]
    rfl
  refine ⟨hids_nodup, hmem_some, ?_⟩
  have hmap : found.map Prod.snd =
      found.map (fun p => (lookupWeight registry p.1).getD 0) := by
    apply List.map_congr_left
    intro p hp
    rw [lookupWeight_of_mem hkeys (hfound_reg p hp)]
    rfl
  calc (found.map Prod.snd).sum
      = (found.map (fun p => (lookupWeight registry p.1).getD 0)).sum := by rw [hmap]
    _ = ((found.map Prod.fst).map (fun i => (lookupWeight registry i).getD 0)).sum := by
        rw [List.map_map]; rfl
    _ = (ids.map (fun i => (lookupWeight registry i).getD 0)).sum :=
        (hperm.map _).sum_eq
    _ = sumWeights registry ids := rfl

/-- With nonnegative stored weights, any computed total weight is
nonnegative. -/
theorem calculateTotalWeight_nonneg {registry : ItemRegistry}
    (hw : ∀ p ∈ registry, 0 ≤ p.2) (ids : List String) :
    0 ≤ calculateTotalWeight registry ids := by
  apply List.sum_nonneg
  intro x hx
  rcases List.mem_map.1 hx with ⟨p, hp, hpx⟩
  exact hpx ▸ hw p ((List.filter_sublist registry).mem hp)

/-- A committed loadItems call implies its checks passed and produces
exactly the mutated document of the source. -/
theorem serviceLoadItems_ok_inv {registry : ItemRegistry} {m m' : MagicMover}
    {moverId : String} {ids : List String} {log : ActivityLogCreate}
    (happ : serviceLoadItems registry (some m) moverId ids = .ok (m', log)) :
    validateItemsExist registry ids = .ok () ∧
    (ids.filter fun i => decide (i ∈ m.items)) = [] ∧
    m.currentWeight + calculateTotalWeight registry ids ≤ m.weightLimit ∧
    m' = { m with
           state := .loading,
           items := m.items ++ ids,
           currentWeight := m.currentWeight + calculateTotalWeight registry ids } := by
  simp only [serviceLoadItems] at happ
  cases hv : validateItemsExist registry ids with
  | error e => rw [hv] at happ; cases happ
  | ok u =>
    cases u
    rw [hv] at happ
    simp only [repoLoadItems] at happ
    cases hval : validateTransition m.state .loading "load" with
    | error e => rw [hval] at happ; cases happ
    | ok u2 =>
      cases u2
      rw [hval] at happ
      by_cases hdup : (ids.filter fun i => decide (i ∈ m.items)).isEmpty
      · rw [if_pos hdup] at happ
        by_cases hwb : validateWeightLimit m (calculateTotalWeight registry ids) = true
        · rw [if_pos hwb] at happ
          have hle : m.currentWeight + calculateTotalWeight registry ids ≤ m.weightLimit := by
            simpa [validateWeightLimit] using hwb
          have hm' : m' = { m with
              state := .loading,
              items := m.items ++ ids,
              currentWeight := m.currentWeight + calculateTotalWeight registry ids } := by
            cases happ
            rfl
          exact ⟨rfl, by simpa [List.isEmpty_iff] using hdup, hle, hm'⟩
        · rw [if_neg hwb] at happ; cases happ
      · rw [if_neg hdup] at happ; cases happ

/-- A committed startMission call only changes the state field. -/
theorem serviceStartMission_ok_inv {m m' : MagicMover} {moverId : String}
    {log : ActivityLogCreate}
    (happ : serviceStartMission (some m) moverId = .ok (m', log)) :
    m' = { m with state := .onMission } := by
  simp only [serviceStartMission, repoStartMission] at happ
  cases hval : validateTransition m.state .onMission "start_mission" with
  | error e => rw [hval] at happ; cases happ
  | ok u => cases u; rw [hval] at happ; cases happ; rfl

/-- A committed endMission call clears the cargo, rests the mover and
increments the mission counter. -/
theorem serviceEndMission_ok_inv {m m' : MagicMover} {moverId : String}
    {log : ActivityLogCreate}
    (happ : serviceEndMission (some m) moverId = .ok (m', log)) :
    m' = { m with
           items := [],
           currentWeight := 0,
           state := .resting,
           completedMissions := m.completedMissions + 1 } := by
  simp only [serviceEndMission, repoEndMission] at happ
  by_cases hs : m.state = .onMission
  · rw [if_neg (by simp [hs])] at happ
    cases hval : validateTransition m.state .resting "end_mission" with
    | error e => rw [hval] at happ; cases happ
    | ok u => cases u; rw [hval] at happ; cases happ; rfl
  · rw [if_pos (by simp [hs])] at happ
    cases happ

/-- A committed unloadItems call clears the cargo and rests the mover. -/
theorem serviceUnloadItems_ok_inv {m m' : MagicMover} {moverId : String}
    {log : ActivityLogCreate}
    (happ : serviceUnloadItems (some m) moverId = .ok (m', log)) :
    m' = { m with items := [], currentWeight := 0, state := .resting } := by
  simp only [serviceUnloadItems, repoUnloadItems] at happ
  cases hval : validateTransition m.state .resting "unload" with
  | error e => rw [hval] at happ; cases happ
  | ok u => cases u; rw [hval] at happ; cases happ; rfl

/-- Every single committed or rejected operation preserves the strengthened
invariant. -/
theorem StrongInvariant_commitStep {registry : ItemRegistry} {m : MagicMover}
    (hkeys : (registry.map Prod.fst).Nodup) (hw : ∀ p ∈ registry, 0 ≤ p.2)
    (hinv : StrongInvariant registry m) (op : MoverOp) :
    StrongInvariant registry (commitStep registry m op) := by
  obtain ⟨hnodup, hpresent, hsum, hnn, hlim⟩ := hinv
  cases op with
  | loadItems ids =>
    cases happ : serviceLoadItems registry (some m) ("mover") ids with
    | error e =>
      simpa [commitStep, applyOp, happ] using ⟨hnodup, hpresent, hsum, hnn, hlim⟩
    | ok pr =>
      obtain ⟨m', log⟩ := pr
      obtain ⟨hexist, hdup, hle, hm'⟩ := serviceLoadItems_ok_inv happ
      obtain ⟨hids_nodup, hids_some, hcalc⟩ := validateItemsExist_ok_inv hkeys hexist
      have hdisj : ∀ i ∈ ids, i ∉ m.items := by
        intro i hi
        have := List.filter_eq_nil_iff.1 hdup i hi
        simpa using this
      have hres : commitStep registry m (.loadItems ids) = m' := by
        simp [commitStep, applyOp, happ]
      rw [hres, hm']
      refine ⟨?_, ?_, ?_, ?_, ?_⟩
      · rw [List.nodup_append]
        exact ⟨hnodup, hids_nodup, fun a ha hb => hdisj a hb ha⟩
      · intro i hi
        rcases List.mem_append.1 hi with h | h
        · exact hpresent i h
        · exact hids_some i h
      · show m.currentWeight + calculateTotalWeight registry ids =
          sumWeights registry (m.items ++ ids)
        rw [sumWeights_append, ← hsum, hcalc]
      · have := calculateTotalWeight_nonneg hw ids
        show (0 : Rat) ≤ m.currentWeight + calculateTotalWeight registry ids
        linarith
      · exact hle
  | startMission =>
    cases happ : serviceStartMission (some m) ("mover") with
    | error e =>
      simpa [commitStep, applyOp, happ] using ⟨hnodup, hpresent, hsum, hnn, hlim⟩
    | ok pr =>
      obtain ⟨m', log⟩ := pr
      have hm' := serviceStartMission_ok_inv happ
      have hres : commitStep registry m .startMission = m' := by
        simp [commitStep, applyOp, happ]
      rw [hres, hm']
      exact ⟨hnodup, hpresent, hsum, hnn, hlim⟩
  | endMission =>
    cases happ : serviceEndMission (some m) ("mover") with
    | error e =>
      simpa [commitStep, applyOp, happ] using ⟨hnodup, hpresent, hsum, hnn, hlim⟩
    | ok pr =>
      obtain ⟨m', log⟩ := pr
      have hm' := serviceEndMission_ok_inv happ
      have hres : commitStep registry m .endMission = m' := by
        simp [commitStep, applyOp, happ]
      rw [hres, hm']
      exact ⟨List.nodup_nil, by simp, by simp [sumWeights_nil], le_refl 0,
        le_trans hnn hlim⟩
  | unloadItems =>
    cases happ : serviceUnloadItems (some m) ("mover") with
    | error e =>
      simpa [commitStep, applyOp, happ] using ⟨hnodup, hpresent, hsum, hnn, hlim⟩
    | ok pr =>
      obtain ⟨m', log⟩ := pr
      have hm' := serviceUnloadItems_ok_inv happ
      have hres : commitStep registry m .unloadItems = m' := by
        simp [commitStep, applyOp, happ]
      rw [hres, hm']
      exact ⟨List.nodup_nil, by simp, by simp [sumWeights_nil], le_refl 0,
        le_trans hnn hlim⟩

/-- Sequential runs of mover-engine requests preserve the strengthened
invariant. -/
theorem StrongInvariant_runOps {registry : ItemRegistry} {m : MagicMover}
    (hkeys : (registry.map Prod.fst).Nodup) (hw : ∀ p ∈ registry, 0 ≤ p.2)
    (hinv : StrongInvariant registry m) (ops : List MoverOp) :
    StrongInvariant registry (runOps registry m ops) := by
  induction ops generalizing m with
  | nil => exact hinv
  | cons op rest ih =>
    exact ih (StrongInvariant_commitStep hkeys hw hinv op)

/-- Membership in the seen-accumulator deduplication. -/
theorem jsSetDedupAux_mem (x : String) (seen l : List String) :
    x ∈ jsSetDedupAux seen l ↔ x ∈ l ∧ x ∉ seen := by
  induction l generalizing seen with
  | nil => simp [jsSetDedupAux]
  | cons y ys ih =>
    by_cases hy : y ∈ seen
    · rw [jsSetDedupAux, if_pos hy, ih]
      constructor
      · exact fun h => ⟨List.mem_cons_of_mem y h.1, h.2⟩
      · rintro ⟨h1, h2⟩
        rcases List.mem_cons.1 h1 with he | hm
        · exact absurd (he ▸ hy) h2
        · exact ⟨hm, h2⟩
    · rw [jsSetDedupAux, if_neg hy]
      rw [List.mem_cons, ih (y :: seen)]
      constructor
      · rintro (he | ⟨h1, h2⟩)
        · exact ⟨he ▸ List.mem_cons_self y ys, he ▸ hy⟩
        · exact ⟨List.mem_cons_of_mem y h1, fun hs => h2 (List.mem_cons_of_mem y hs)⟩
      · rintro ⟨h1, h2⟩
        by_cases he : x = y
        · exact Or.inl he
        · rcases List.mem_cons.1 h1 with he' | hm
          · exact absurd he' he
          · exact Or.inr ⟨hm, fun hs => (List.mem_cons.1 hs).elim he h2⟩

/-- Deduplication preserves membership. -/
theorem jsSetDedup_mem (x : String) (l : List String) :
    x ∈ jsSetDedup l ↔ x ∈ l := by
  rw [jsSetDedup, jsSetDedupAux_mem]
  simp

/-- Over an association list with unique keys, searching for the key of a
stored entry finds exactly that entry. -/
theorem find?_key_eq_some {α : Type} {movers : List (String × α)} {x : String × α}
    (hkeys : (movers.map Prod.fst).Nodup) (hx : x ∈ movers) :
    movers.find? (fun mv => decide (mv.1 = x.1)) = some x := by
  induction movers with
  | nil => cases hx
  | cons y rest ih =>
    rw [List.map_cons, List.nodup_cons] at hkeys
    rcases List.mem_cons.1 hx with he | hrest
    · subst he
      simp [List.find?]
    · have hne : y.1 ≠ x.1 := fun he =>
        hkeys.1 (he ▸ List.mem_map_of_mem Prod.fst hrest)
      simpa [List.find?, hne] using ih hkeys.2 hrest

/-- Claim C1: after every committed mover-engine operation (create,
loadItems, startMission, endMission, unloadItems), executed sequentially on
a mover created fresh, the mover's currentWeight equals the sum of the
weights of the items referenced by its cargo list, currentWeight stays
within weightLimit, and the cargo list has no duplicate ids. Hypotheses:
the item store has unique document ids and nonnegative weights (the schema
enforces weight at least 0), and the creation request committed. -/
theorem mover_invariants (registry : ItemRegistry)
    (hkeys : (registry.map Prod.fst).Nodup) (hw : ∀ p ∈ registry, 0 ≤ p.2)
    (weightLimit : Rat) (name : Option String) (m₀ : MagicMover)
    (hcreate : createMover weightLimit name = .ok m₀) (ops : List MoverOp) :
    MoverInvariant registry (runOps registry m₀ ops) := by
  have hm₀ : m₀ = { name := name, weightLimit := weightLimit } ∧ 0 < weightLimit := by
    by_cases hle : weightLimit ≤ 0
    · simp [createMover, hle] at hcreate
    · by_cases hname : name = some ""
      · simp [createMover, hle, hname] at hcreate
      · refine ⟨?_, not_le.1 hle⟩
        simp [createMover, hle, hname] at hcreate
        exact hcreate.symm
  obtain ⟨hm₀eq, hpos⟩ := hm₀
  have hinv₀ : StrongInvariant registry m₀ := by
    rw [hm₀eq]
    exact ⟨List.nodup_nil, by simp, by simp [sumWeights_nil], le_refl 0, le_of_lt hpos⟩
  obtain ⟨h1, h2, h3, h4, h5⟩ := StrongInvariant_runOps hkeys hw hinv₀ ops
  exact ⟨h3, h5, h1⟩

/-- Witness for claim C1 at a concrete registry, creation request and
operation sequence. -/
theorem mover_invariants_witness :
    MoverInvariant [(("a" : String), (1 : Rat)), ("b", 2)]
      (runOps [(("a" : String), (1 : Rat)), ("b", 2)]
        { name := none, weightLimit := 10 }
        [.loadItems ["a", "b"], .startMission, .endMission, .loadItems ["a"]]) := by
  exact mover_invariants [(("a" : String), (1 : Rat)), ("b", 2)]
    (by decide) (by decide) 10 none { name := none, weightLimit := 10 }
    (by decide) [.loadItems ["a", "b"], .startMission, .endMission, .loadItems ["a"]]

/-- Claim C2: canTransition accepts exactly the five rows of the transition
table (RESTING load LOADING, LOADING load LOADING, LOADING start_mission
ON_MISSION, LOADING unload RESTING, ON_MISSION end_mission RESTING), and
for every triple outside the table validateTransition fails with the
InvalidTransitionError carrying that from-state, to-state and action. -/
theorem canTransition_table (f t : MagicMoverState) (a : String) :
    (canTransition f t a = true ↔
      ((f = .resting ∧ t = .loading ∧ a = "load") ∨
       (f = .loading ∧ t = .loading ∧ a = "load") ∨
       (f = .loading ∧ t = .onMission ∧ a = "start_mission") ∨
       (f = .loading ∧ t = .resting ∧ a = "unload") ∨
       (f = .onMission ∧ t = .resting ∧ a = "end_mission"))) ∧
    (canTransition f t a = false →
      validateTransition f t a = .error (.invalidTransition f t a)) := by
  constructor
  · cases f <;> cases t <;> simp [canTransition, TRANSITIONS, eq_comm]
  · intro h
    simp [validateTransition, h]

/-- Witness for claim C2: the direct RESTING to ON_MISSION start_mission is
outside the table and is rejected with the diagnostic error. -/
theorem canTransition_table_witness :
    canTransition .resting .onMission "start_mission" = false ∧
    validateTransition .resting .onMission "start_mission" =
      .error (.invalidTransition .resting .onMission "start_mission") :=
  ⟨by decide, (canTransition_table .resting .onMission "start_mission").2 (by decide)⟩

/-- Claim C3: endMission succeeds only from ON_MISSION; from any other state
it fails with the distinct must-be-on-mission error raised before the state
machine is consulted; on success it clears items, zeroes currentWeight,
rests the mover and increments completedMissions by exactly 1. -/
theorem serviceEndMission_spec (m : MagicMover) (moverId : String) :
    (m.state ≠ .onMission →
      serviceEndMission (some m) moverId = .error .mustBeOnMission) ∧
    (m.state = .onMission →
      serviceEndMission (some m) moverId = .ok
        ({ m with
           items := [],
           currentWeight := 0,
           state := .resting,
           completedMissions := m.completedMissions + 1 },
         { moverId := moverId,
           activityType := .missionEnded,
           previousState := .onMission,
           newState := .resting,
           itemCount := some m.items.length,
           totalWeight := some m.currentWeight,
           completedMissions := some (m.completedMissions + 1) })) := by
  constructor
  · intro h
    simp [serviceEndMission, h]
  · intro h
    simp [serviceEndMission, h, repoEndMission, validateTransition, canTransition, TRANSITIONS]

/-- Witness for claim C3 on a resting mover and on an on-mission mover. -/
theorem serviceEndMission_spec_witness :
    serviceEndMission (some { weightLimit := 10, state := .resting }) ("m1") =
      .error .mustBeOnMission ∧
    serviceEndMission
      (some { weightLimit := 10, currentWeight := 1, state := .onMission, items := ["a"] })
      ("m2") = .ok
        ({ weightLimit := 10, currentWeight := 0, state := .resting, items := [],
           completedMissions := 1 },
         { moverId := "m2",
           activityType := .missionEnded,
           previousState := .onMission,
           newState := .resting,
           itemCount := some 1,
           totalWeight := some 1,
           completedMissions := some 1 }) := by
  constructor
  · exact (serviceEndMission_spec { weightLimit := 10, state := .resting } ("m1")).1
      (by decide)
  · have h := (serviceEndMission_spec
      { weightLimit := 10, currentWeight := 1, state := .onMission, items := ["a"] }
      ("m2")).2 (by decide)
    simpa using h

/-- Claim C4: for a mover in a load-permitting state with an
all-existing, duplicate-free request, a load whose incoming weight would
strictly exceed the limit fails with the CapacityExceededError reporting
current, incoming and limit, and leaves the stored mover unchanged; loading
exactly up to the limit commits. -/
theorem serviceLoadItems_capacity (registry : ItemRegistry) (m : MagicMover)
    (moverId : String) (itemIds : List String)
    (hstate : canTransition m.state .loading "load" = true)
    (hexist : validateItemsExist registry itemIds = .ok ())
    (hdup : itemIds.filter (fun i => decide (i ∈ m.items)) = []) :
    (m.weightLimit < m.currentWeight + calculateTotalWeight registry itemIds →
      serviceLoadItems registry (some m) moverId itemIds =
        .error (.capacityExceeded m.currentWeight
          (calculateTotalWeight registry itemIds) m.weightLimit) ∧
      commitStep registry m (.loadItems itemIds) = m) ∧
    (m.currentWeight + calculateTotalWeight registry itemIds ≤ m.weightLimit →
      serviceLoadItems registry (some m) moverId itemIds = .ok
        ({ m with
           state := .loading,
           items := m.items ++ itemIds,
           currentWeight := m.currentWeight + calculateTotalWeight registry itemIds },
         { moverId := moverId,
           activityType := .loading,
           previousState := m.state,
           newState := .loading,
           itemIds := some itemIds,
           itemCount := some itemIds.length,
           totalWeight := some (calculateTotalWeight registry itemIds) })) := by
  constructor
  · intro hover
    have hw : validateWeightLimit m (calculateTotalWeight registry itemIds) = false := by
      simp [validateWeightLimit, not_le]
      exact hover
    constructor
    · simp [serviceLoadItems, hexist, repoLoadItems, validateTransition, hstate, hdup, hw]
    · simp [commitStep, applyOp, serviceLoadItems, hexist, repoLoadItems,
        validateTransition, hstate, hdup, hw]
  · intro hle
    have hw : validateWeightLimit m (calculateTotalWeight registry itemIds) = true := by
      simp [validateWeightLimit]
      exact hle
    simp [serviceLoadItems, hexist, repoLoadItems, validateTransition, hstate, hdup, hw]

/-- Witness for claim C4: a 15-weight item on an empty 10-limit mover is
rejected with the reported figures, and a 10-weight item on the same mover
loads exactly up to the limit. -/
theorem serviceLoadItems_capacity_witness :
    serviceLoadItems [(("a" : String), (15 : Rat))] (some { weightLimit := 10 }) ("m1") ["a"] =
      .error (.capacityExceeded 0 15 10) ∧
    serviceLoadItems [(("a" : String), (10 : Rat))] (some { weightLimit := 10 }) ("m2") ["a"] =
      .ok ({ weightLimit := 10, state := .loading, items := ["a"], currentWeight := 10 },
        { moverId := "m2",
          activityType := .loading,
          previousState := .resting,
          newState := .loading,
          itemIds := some ["a"],
          itemCount := some 1,
          totalWeight := some 10 }) := by
  constructor
  · have h := ((serviceLoadItems_capacity [(("a" : String), (15 : Rat))]
      { weightLimit := 10 } ("m1") ["a"] (by decide) (by decide) (by decide)).1
        (by norm_num [calculateTotalWeight, findByIds])).1
    simpa [calculateTotalWeight, findByIds] using h
  · have h := (serviceLoadItems_capacity [(("a" : String), (10 : Rat))]
      { weightLimit := 10 } ("m2") ["a"] (by decide) (by decide) (by decide)).2
        (by norm_num [calculateTotalWeight, findByIds])
    simpa [calculateTotalWeight, findByIds] using h

/-- Counterexample to claim C5 as stated: loading an already-aboard item id
onto an ON_MISSION mover fails with InvalidTransitionError, not
DuplicateItemError, because the repository consults the state machine
before the duplicate check. -/
theorem serviceLoadItems_duplicate_on_mission_counterexample :
    ("a" : String) ∈
      ({ weightLimit := 10, currentWeight := 1, state := .onMission, items := ["a"] } :
        MagicMover).items ∧
    serviceLoadItems [(("a" : String), (1 : Rat))]
      (some { weightLimit := 10, currentWeight := 1, state := .onMission, items := ["a"] })
      ("m1") ["a"] = .error (.invalidTransition .onMission .loading "load") :=
  ⟨by decide, by decide⟩

/-- Claim C5 amended: a duplicate load fails and leaves the mover unchanged;
in a load-permitting state the failure is the DuplicateItemError listing
the duplicates, while on an ON_MISSION mover the state-machine check runs
first, so the failure is the InvalidTransitionError instead. -/
theorem serviceLoadItems_duplicates (registry : ItemRegistry) (m : MagicMover)
    (moverId : String) (itemIds : List String) :
    (canTransition m.state .loading "load" = true →
      validateItemsExist registry itemIds = .ok () →
      itemIds.filter (fun i => decide (i ∈ m.items)) ≠ [] →
      serviceLoadItems registry (some m) moverId itemIds =
        .error (.duplicateItems (itemIds.filter fun i => decide (i ∈ m.items))) ∧
      commitStep registry m (.loadItems itemIds) = m) ∧
    (m.state = .onMission →
      validateItemsExist registry itemIds = .ok () →
      serviceLoadItems registry (some m) moverId itemIds =
        .error (.invalidTransition .onMission .loading "load") ∧
      commitStep registry m (.loadItems itemIds) = m) := by
  constructor
  · intro hstate hexist hdup
    have hne : (itemIds.filter fun i => decide (i ∈ m.items)).isEmpty = false := by
      simpa [List.isEmpty_iff] using hdup
    constructor
    · simp [serviceLoadItems, hexist, repoLoadItems, validateTransition, hstate, hne]
    · simp [commitStep, applyOp, serviceLoadItems, hexist, repoLoadItems,
        validateTransition, hstate, hne]
  · intro hstate hexist
    have hcan : canTransition MagicMoverState.onMission .loading "load" = false := by decide
    constructor
    · simp [serviceLoadItems, hexist, repoLoadItems, validateTransition, hstate, hcan]
    · simp [commitStep, applyOp, serviceLoadItems, hexist, repoLoadItems,
        validateTransition, hstate, hcan]

/-- Witness for amended claim C5 on a loading mover with a duplicate and an
on-mission mover. -/
theorem serviceLoadItems_duplicates_witness :
    serviceLoadItems [(("a" : String), (1 : Rat))]
      (some { weightLimit := 10, currentWeight := 1, state := .loading, items := ["a"] })
      ("m1") ["a"] = .error (.duplicateItems ["a"]) ∧
    serviceLoadItems [(("b" : String), (1 : Rat))]
      (some { weightLimit := 10, currentWeight := 1, state := .onMission, items := ["a"] })
      ("m2") ["b"] = .error (.invalidTransition .onMission .loading "load") := by
  constructor
  · have h := ((serviceLoadItems_duplicates [(("a" : String), (1 : Rat))]
      { weightLimit := 10, currentWeight := 1, state := .loading, items := ["a"] }
      ("m1") ["a"]).1 (by decide) (by decide) (by decide)).1
    simpa using h
  · have h := ((serviceLoadItems_duplicates [(("b" : String), (1 : Rat))]
      { weightLimit := 10, currentWeight := 1, state := .onMission, items := ["a"] }
      ("m2") ["b"]).2 (by decide) (by decide)).1
    simpa using h

/-- Claim C6: unloadItems succeeds only from LOADING (never from
ON_MISSION); on success it clears items, zeroes currentWeight and rests the
mover while completedMissions, name and weightLimit are unchanged. -/
theorem serviceUnloadItems_spec (m : MagicMover) (moverId : String) :
    (m.state = .loading →
      serviceUnloadItems (some m) moverId = .ok
        ({ m with items := [], currentWeight := 0, state := .resting },
         { moverId := moverId,
           activityType := .unloading,
           previousState := .loading,
           newState := .resting,
           itemCount := some m.items.length,
           totalWeight := some m.currentWeight }) ∧
      ({ m with items := [], currentWeight := 0, state := .resting } :
        MagicMover).completedMissions = m.completedMissions ∧
      ({ m with items := [], currentWeight := 0, state := .resting } :
        MagicMover).name = m.name ∧
      ({ m with items := [], currentWeight := 0, state := .resting } :
        MagicMover).weightLimit = m.weightLimit) ∧
    (m.state ≠ .loading →
      serviceUnloadItems (some m) moverId =
        .error (.invalidTransition m.state .resting "unload")) := by
  refine ⟨fun h => ⟨?_, rfl, rfl, rfl⟩, fun h => ?_⟩
  · simp [serviceUnloadItems, h, repoUnloadItems, validateTransition, canTransition, TRANSITIONS]
  · have hcan : canTransition m.state .resting "unload" = false := by
      cases hm : m.state <;> simp_all [canTransition, TRANSITIONS]
    simp [serviceUnloadItems, repoUnloadItems, validateTransition, hcan]

/-- Witness for claim C6 on a loading mover and an on-mission mover. -/
theorem serviceUnloadItems_spec_witness :
    serviceUnloadItems
      (some { weightLimit := 10, currentWeight := 2, state := .loading, items := ["a"],
              completedMissions := 3 }) ("m1") = .ok
        ({ weightLimit := 10, currentWeight := 0, state := .resting, items := [],
           completedMissions := 3 },
         { moverId := "m1",
           activityType := .unloading,
           previousState := .loading,
           newState := .resting,
           itemCount := some 1,
           totalWeight := some 2 }) ∧
    serviceUnloadItems
      (some { weightLimit := 10, currentWeight := 2, state := .onMission, items := ["a"] })
      ("m2") = .error (.invalidTransition .onMission .resting "unload") := by
  constructor
  · have h := ((serviceUnloadItems_spec
      { weightLimit := 10, currentWeight := 2, state := .loading, items := ["a"],
        completedMissions := 3 } ("m1")).1 (by decide)).1
    simpa using h
  · exact (serviceUnloadItems_spec
      { weightLimit := 10, currentWeight := 2, state := .onMission, items := ["a"] }
      ("m2")).2 (by decide)

/-- Counterexample to claim C7 as stated: a mover with a qualifying LOADING
entry but zero qualifying missions is returned by the code, while the claim
excludes it; and the code's per-mover count is the number of qualifying
LOADING entries followed by some MISSION_ENDED entry, not the number of
MISSION_ENDED entries after some qualifying LOADING entry, which reverses
the claimed order on a two-mover log. -/
theorem getTopPerformers_counterexample :
    getTopPerformersByItem [⟨"m1", .loading, ["i"], 0⟩]
      [("m1", { weightLimit := 10 })] ("i") =
      [("m1", { weightLimit := 10 })] ∧
    claimMissionCount [⟨"m1", .loading, ["i"], 0⟩] ("i") ("m1") = 0 ∧
    claimTopPerformersByItem [⟨"m1", .loading, ["i"], 0⟩]
      [("m1", { weightLimit := 10 })] ("i") = [] ∧
    codeMissionCount
      [⟨"ma", .loading, ["j"], 0⟩, ⟨"ma", .missionEnded, [], 1⟩,
       ⟨"ma", .missionEnded, [], 2⟩, ⟨"mb", .loading, ["j"], 0⟩,
       ⟨"mb", .loading, ["j"], 1⟩, ⟨"mb", .missionEnded, [], 2⟩] ("j") ("ma") = 1 ∧
    claimMissionCount
      [⟨"ma", .loading, ["j"], 0⟩, ⟨"ma", .missionEnded, [], 1⟩,
       ⟨"ma", .missionEnded, [], 2⟩, ⟨"mb", .loading, ["j"], 0⟩,
       ⟨"mb", .loading, ["j"], 1⟩, ⟨"mb", .missionEnded, [], 2⟩] ("j") ("ma") = 2 ∧
    (getTopPerformersByItem
      [⟨"ma", .loading, ["j"], 0⟩, ⟨"ma", .missionEnded, [], 1⟩,
       ⟨"ma", .missionEnded, [], 2⟩, ⟨"mb", .loading, ["j"], 0⟩,
       ⟨"mb", .loading, ["j"], 1⟩, ⟨"mb", .missionEnded, [], 2⟩]
      [("ma", { weightLimit := 5 }), ("mb", { weightLimit := 7 })] ("j")).map Prod.fst =
      ["mb", "ma"] ∧
    (claimTopPerformersByItem
      [⟨"ma", .loading, ["j"], 0⟩, ⟨"ma", .missionEnded, [], 1⟩,
       ⟨"ma", .missionEnded, [], 2⟩, ⟨"mb", .loading, ["j"], 0⟩,
       ⟨"mb", .loading, ["j"], 1⟩, ⟨"mb", .missionEnded, [], 2⟩]
      [("ma", { weightLimit := 5 }), ("mb", { weightLimit := 7 })] ("j")).map Prod.fst =
      ["ma", "mb"] := by
  refine ⟨by decide, by decide, by decide, by decide, by decide, by decide, by decide⟩

/-- Claim C7 amended: getTopPerformers(itemId) returns exactly the stored
movers having at least one LOADING entry whose itemIds contain the item,
zero-count movers included, ordered descending by the code's count (the
number of that mover's qualifying LOADING entries strictly followed by some
of its MISSION_ENDED entries). Hypothesis: mover ids are unique. -/
theorem getTopPerformersByItem_spec (logs : List ActivityLogDoc)
    (movers : List (String × MagicMover)) (itemId : String)
    (hkeys : (movers.map Prod.fst).Nodup) :
    (∀ x, x ∈ getTopPerformersByItem logs movers itemId ↔
      (x ∈ movers ∧ ∃ l ∈ qualifyingLoadings logs itemId, l.moverId = x.1)) ∧
    (getTopPerformersByItem logs movers itemId).Pairwise
      (fun x y => codeMissionCount logs itemId y.1 ≤ codeMissionCount logs itemId x.1) := by
  have hout : getTopPerformersByItem logs movers itemId =
      (List.insertionSort (fun a b => b.2 ≤ a.2)
        ((jsSetDedup ((qualifyingLoadings logs itemId).map (·.moverId))).map
          fun moverId => (moverId, codeMissionCount logs itemId moverId))).filterMap
        (fun p => movers.find? fun mv => decide (mv.1 = p.1)) := rfl
  have hsortedmem : ∀ p, p ∈ List.insertionSort (fun a b => b.2 ≤ a.2)
      ((jsSetDedup ((qualifyingLoadings logs itemId).map (·.moverId))).map
        fun moverId => (moverId, codeMissionCount logs itemId moverId)) ↔
      p ∈ (jsSetDedup ((qualifyingLoadings logs itemId).map (·.moverId))).map
        fun moverId => (moverId, codeMissionCount logs itemId moverId) :=
    fun p => (List.perm_insertionSort _ _).mem_iff
  constructor
  · intro x
    rw [hout, List.mem_filterMap]
    constructor
    · rintro ⟨p, hp, hfind⟩
      have hxm : x ∈ movers := List.mem_of_find?_eq_some hfind
      have hx1 : x.1 = p.1 := by simpa using List.find?_some hfind
      rcases List.mem_map.1 ((hsortedmem p).1 hp) with ⟨mid, hmid, hpeq⟩
      have hmid' : mid ∈ (qualifyingLoadings logs itemId).map (·.moverId) :=
        (jsSetDedup_mem mid _).1 hmid
      rcases List.mem_map.1 hmid' with ⟨l, hl, hlid⟩
      refine ⟨hxm, l, hl, ?_⟩
      rw [hlid, hx1, ← hpeq]
    · rintro ⟨hxm, l, hl, hlid⟩
      have hid : x.1 ∈ jsSetDedup ((qualifyingLoadings logs itemId).map (·.moverId)) :=
        (jsSetDedup_mem _ _).2 (List.mem_map.2 ⟨l, hl, hlid⟩)
      refine ⟨(x.1, codeMissionCount logs itemId x.1), ?_, ?_⟩
      · exact (hsortedmem _).2 (List.mem_map.2 ⟨x.1, hid, rfl⟩)
      · exact find?_key_eq_some hkeys hxm
  · haveI : IsTotal (String × Nat) (fun a b => b.2 ≤ a.2) := ⟨fun a b => by omega⟩
    haveI : IsTrans (String × Nat) (fun a b => b.2 ≤ a.2) :=
      ⟨fun a b c h1 h2 => by omega⟩
    have hsorted : (List.insertionSort (fun a b => b.2 ≤ a.2)
        ((jsSetDedup ((qualifyingLoadings logs itemId).map (·.moverId))).map
          fun moverId => (moverId, codeMissionCount logs itemId moverId))).Pairwise
        (fun a b => b.2 ≤ a.2) :=
      List.sorted_insertionSort _ _
    have hval : ∀ p ∈ List.insertionSort (fun a b => b.2 ≤ a.2)
        ((jsSetDedup ((qualifyingLoadings logs itemId).map (·.moverId))).map
          fun moverId => (moverId, codeMissionCount logs itemId moverId)),
        p.2 = codeMissionCount logs itemId p.1 := by
      intro p hp
      rcases List.mem_map.1 ((hsortedmem p).1 hp) with ⟨mid, _, hpeq⟩
      rw [← hpeq]
    have hsorted' : (List.insertionSort (fun a b => b.2 ≤ a.2)
        ((jsSetDedup ((qualifyingLoadings logs itemId).map (·.moverId))).map
          fun moverId => (moverId, codeMissionCount logs itemId moverId))).Pairwise
        (fun a b => codeMissionCount logs itemId b.1 ≤ codeMissionCount logs itemId a.1) := by
      refine List.Pairwise.imp_of_mem ?_ hsorted
      intro a b ha hb hab
      rw [← hval a ha, ← hval b hb]
      exact hab
    rw [hout]
    refine List.Pairwise.filterMap _ ?_ hsorted'
    intro p q hpq x hx y hy
    have hxp : x.1 = p.1 := by simpa using List.find?_some (Option.mem_def.1 hx)
    have hyq : y.1 = q.1 := by simpa using List.find?_some (Option.mem_def.1 hy)
    rw [hxp, hyq]
    exact hpq

/-- Witness for amended claim C7 on a one-mover log store. -/
theorem getTopPerformersByItem_spec_witness :
    (("ma", ({ weightLimit := 5 } : MagicMover)) ∈
      getTopPerformersByItem
        [⟨"ma", .loading, ["j"], 0⟩, ⟨"ma", .missionEnded, [], 1⟩]
        [("ma", { weightLimit := 5 })] ("j")) ∧
    (getTopPerformersByItem
        [⟨"ma", .loading, ["j"], 0⟩, ⟨"ma", .missionEnded, [], 1⟩]
        [("ma", { weightLimit := 5 })] ("j")).Pairwise
      (fun x y => codeMissionCount [⟨"ma", .loading, ["j"], 0⟩,
        ⟨"ma", .missionEnded, [], 1⟩] ("j") y.1 ≤
        codeMissionCount [⟨"ma", .loading, ["j"], 0⟩,
          ⟨"ma", .missionEnded, [], 1⟩] ("j") x.1) := by
  constructor
  · exact ((getTopPerformersByItem_spec
      [⟨"ma", .loading, ["j"], 0⟩, ⟨"ma", .missionEnded, [], 1⟩]
      [("ma", { weightLimit := 5 })] ("j") (by decide)).1
        ("ma", { weightLimit := 5 })).2
      ⟨by decide, ⟨"ma", .loading, ["j"], 0⟩, by decide, rfl⟩
  · exact (getTopPerformersByItem_spec
      [⟨"ma", .loading, ["j"], 0⟩, ⟨"ma", .missionEnded, [], 1⟩]
      [("ma", { weightLimit := 5 })] ("j") (by decide)).2

/-- Claim C8: the mover schema disables the version key, so the repository's
save carries no version condition; in the lost-update race of two
endMission calls the stale second save succeeds and silently overwrites
(completedMissions stays 1 and no concurrency conflict is raised), whereas
an enabled version check would reject the second save with the
concurrency-conflict error the repository's catch block expects. -/
theorem endMission_race_lost_update :
    magicMoverVersionKeyEnabled = false ∧
    raceEndMissionTwice magicMoverVersionKeyEnabled
      ⟨{ weightLimit := 10, currentWeight := 1, state := .onMission, items := ["a"] }, 0⟩ =
      (.ok ⟨{ weightLimit := 10, currentWeight := 0, state := .resting, items := [],
              completedMissions := 1 }, 1⟩,
       .ok ⟨{ weightLimit := 10, currentWeight := 0, state := .resting, items := [],
              completedMissions := 1 }, 2⟩) ∧
    raceEndMissionTwice true
      ⟨{ weightLimit := 10, currentWeight := 1, state := .onMission, items := ["a"] }, 0⟩ =
      (.ok ⟨{ weightLimit := 10, currentWeight := 0, state := .resting, items := [],
              completedMissions := 1 }, 1⟩,
       .error .concurrencyConflict) :=
  ⟨rfl, by decide, by decide⟩

/-- Counterexample to claim C9 as stated: a positive-weight request with the
non-empty name consisting of a letter between spaces commits, but the
created item carries the trimmed name, not exactly the requested one. -/
theorem createMagicItem_trim_counterexample :
    createMagicItem (" a ") 1 = .ok ⟨"a", 1⟩ ∧ ("a" : String) ≠ " a " :=
  ⟨by decide, by decide⟩

/-- Claim C9 amended: creation fails with a validation error when the name
is empty or the weight is not positive; with a positive weight and a
non-empty name the item is created with the trimmed name and that weight,
except that a name that trims to empty fails the schema's required check. -/
theorem createMagicItem_spec (name : String) (weight : Rat) :
    (name = "" → createMagicItem name weight = .error (.dtoValidationError "name")) ∧
    (name ≠ "" → weight ≤ 0 →
      createMagicItem name weight = .error (.dtoValidationError "weight")) ∧
    (name ≠ "" → 0 < weight → jsTrim name = "" →
      createMagicItem name weight = .error (.schemaValidationError "name")) ∧
    (name ≠ "" → 0 < weight → jsTrim name ≠ "" →
      createMagicItem name weight = .ok ⟨jsTrim name, weight⟩) := by
  refine ⟨fun h1 => ?_, fun h1 h2 => ?_, fun h1 h2 h3 => ?_, fun h1 h2 h3 => ?_⟩
  · simp [createMagicItem, h1]
  · simp [createMagicItem, h1, h2]
  · simp [createMagicItem, h1, h2, h3, not_le.2 h2]
  · simp [createMagicItem, h1, h3, not_le.2 h2, not_lt.2 (le_of_lt h2)]

/-- Witness for amended claim C9 across all four outcomes. -/
theorem createMagicItem_spec_witness :
    createMagicItem ("") 1 = .error (.dtoValidationError "name") ∧
    createMagicItem ("x") (-1) = .error (.dtoValidationError "weight") ∧
    createMagicItem (" ") 1 = .error (.schemaValidationError "name") ∧
    createMagicItem ("x y") 2 = .ok ⟨"x y", 2⟩ := by
  refine ⟨?_, ?_, ?_, ?_⟩
  · exact (createMagicItem_spec ("") 1).1 rfl
  · exact (createMagicItem_spec ("x") (-1)).2.1 (by decide) (by norm_num)
  · exact (createMagicItem_spec (" ") 1).2.2.1 (by decide) (by norm_num) (by decide)
  · have h := (createMagicItem_spec ("x y") 2).2.2.2 (by decide) (by norm_num) (by decide)
    simpa using h

/-- Claim C10: loading the empty item list onto an existing RESTING mover
(whose weight respects its limit) commits: the existence, duplicate and
capacity checks pass vacuously, the mover moves to LOADING with items and
currentWeight unchanged, and the LOADING log entry carries itemCount 0 and
totalWeight 0. -/
theorem serviceLoadItems_empty (registry : ItemRegistry) (m : MagicMover)
    (moverId : String) (hstate : m.state = .resting)
    (hweight : m.currentWeight ≤ m.weightLimit) :
    serviceLoadItems registry (some m) moverId [] = .ok
      ({ m with state := .loading },
       { moverId := moverId,
         activityType := .loading,
         previousState := .resting,
         newState := .loading,
         itemIds := some [],
         itemCount := some 0,
         totalWeight := some 0 }) := by
  have hfind : findByIds registry [] = [] := by
    simp [findByIds]
  simp [serviceLoadItems, validateItemsExist, hfind, calculateTotalWeight,
    repoLoadItems, validateTransition, canTransition, TRANSITIONS, hstate,
    validateWeightLimit, hweight]

/-- Witness for claim C10 on a fresh mover and an arbitrary registry. -/
theorem serviceLoadItems_empty_witness :
    serviceLoadItems [] (some { weightLimit := 10 }) ("m1") [] = .ok
      ({ weightLimit := 10, state := .loading },
       { moverId := "m1",
         activityType := .loading,
         previousState := .resting,
         newState := .loading,
         itemIds := some [],
         itemCount := some 0,
         totalWeight := some 0 }) := by
  have h := serviceLoadItems_empty [] { weightLimit := 10 } ("m1") (by decide) (by decide)
  simpa using h

end MagicTransporter
